import Mathlib

/-!
Verification of the House3DVisualizer data-to-geometry pipeline (src/main.ts).

The embedding below translates the pipeline into Lean:
* JSON numbers are modelled as rationals (every number produced by `JSON.parse`
  is a finite IEEE double, and every arithmetic step the pipeline performs on
  them is exact except where noted).
* The legacy-format renderer divides by the bounding extent, which in
  JavaScript can produce `Infinity` and, downstream, `NaN`.  Those values are
  modelled explicitly by the `JsNum` type together with IEEE-faithful
  multiplication, division and falsiness (`x || 0.1`).
* `Math.sqrt`, `Math.atan2` and `parseFloat` are external library functions;
  they are passed in as an explicit environment (`JsEnv`), and theorems that
  need particular values of them take those values as hypotheses.
* Parsed JSON values of unknown shape are modelled by the `Json` inductive;
  property access on `null` throws a `TypeError` in JavaScript, which the
  schema detector models with `Except`.
-/

namespace House3D

/-- A parsed JSON value (the result of a successful `JSON.parse`).
Objects are association lists with pairwise-distinct keys, which is what
`JSON.parse` produces. -/
inductive Json where
  | null
  | bool (b : Bool)
  | num (q : ℚ)
  | str (s : String)
  | arr (elems : List Json)
  | obj (fields : List (String × Json))

/-- JavaScript property access `v.k` for a parsed JSON value: defined on
objects; on arrays, strings, numbers and booleans a named property such as
`records` is absent (`undefined`, modelled as `none`).  Access on `null`
throws and is handled separately by the caller. -/
def lookupField : List (String × Json) → String → Option Json
  | [], _ => none
  | (k', v) :: rest, k => if k' = k then some v else lookupField rest k

def getField : Json → String → Option Json
  | .obj fs, k => lookupField fs k
  | _, _ => none

/-- JavaScript truthiness of a parsed JSON value (`NaN` cannot result from
`JSON.parse`, so the numeric case is exact). -/
def truthy : Json → Bool
  | .null => false
  | .bool b => b
  | .num q => q ≠ 0
  | .str s => s ≠ ""
  | .arr _ => true
  | .obj _ => true

/-- `Array.isArray`. -/
def isArray : Json → Bool
  | .arr _ => true
  | _ => false

/-- The three schema-detection outcomes. -/
inductive Schema where
  | currentRecords
  | legacyWalls
  | unrecognized
deriving DecidableEq, Repr

/-- The compound test `data.k && Array.isArray(data.k)`. -/
def fieldTruthyArray (v : Json) (k : String) : Bool :=
  match getField v k with
  | some r => truthy r && isArray r
  | none => false

/-- Schema detection, from `handleFileUpload`:
`data.records && Array.isArray(data.records)` chooses the current format,
otherwise `data.walls && Array.isArray(data.walls)` chooses the legacy
format, otherwise the input is unrecognised.  When the parsed value is
`null`, the very first property access `data.records` throws a `TypeError`
(caught by the surrounding `try`), modelled as `Except.error`. -/
def detectSchema (v : Json) : Except Unit Schema :=
  match v with
  | .null => .error ()
  | _ =>
    if fieldTruthyArray v "records" then .ok .currentRecords
    else if fieldTruthyArray v "walls" then .ok .legacyWalls
    else .ok .unrecognized

/-- "The value has a `k` field that is a sequence", the wording of the
specification's classification rule. -/
def hasSeqField (v : Json) (k : String) : Bool :=
  match getField v k with
  | some (.arr _) => true
  | _ => false

/-- The classification rule exactly as the specification words it: a value
with a `records` field that is a sequence is `CurrentRecords`; otherwise a
value with a `walls` field that is a sequence is `LegacyWalls`; otherwise
`Unrecognized`.  Kept separate from `detectSchema` so the two can be
compared. -/
def specSchemaRule (v : Json) : Schema :=
  if hasSeqField v "records" then .currentRecords
  else if hasSeqField v "walls" then .legacyWalls
  else .unrecognized

/-! ### JavaScript numbers for the legacy renderer

The legacy renderer computes `50 / size` with no zero guard, so its scale
can be `Infinity` and products with it can be `NaN`.  `JsNum` models the
IEEE double values reachable there: finite values are exact rationals
(`-0` does not arise: the only division is by `max`-of-differences, which
is a nonnegative rational). -/
inductive JsNum where
  | num (q : ℚ)
  | inf (pos : Bool)
  | nan
deriving DecidableEq, Repr

namespace JsNum

/-- IEEE multiplication restricted to the values `JsNum` represents. -/
def mul : JsNum → JsNum → JsNum
  | num a, num b => num (a * b)
  | num a, inf p => if a = 0 then nan else if 0 < a then inf p else inf (!p)
  | inf p, num a => if a = 0 then nan else if 0 < a then inf p else inf (!p)
  | inf p, inf q => inf (p == q)
  | nan, _ => nan
  | _, nan => nan

/-- IEEE division restricted to the values `JsNum` represents (the divisor
`0` is a positive zero here, see above). -/
def div : JsNum → JsNum → JsNum
  | num a, num b =>
    if b = 0 then (if a = 0 then nan else if 0 < a then inf true else inf false)
    else num (a / b)
  | num _, inf _ => num 0
  | inf p, num b => if 0 ≤ b then inf p else inf (!p)
  | inf _, inf _ => nan
  | nan, _ => nan
  | _, nan => nan

/-- JavaScript falsiness of a number: `0` and `NaN` are falsy. -/
def falsy : JsNum → Bool
  | num a => a = 0
  | nan => true
  | inf _ => false

/-- `a || b` on numbers: `b` when `a` is falsy, else `a`. -/
def orElse (a b : JsNum) : JsNum := if a.falsy then b else a

def isFinite : JsNum → Bool
  | num _ => true
  | _ => false

end JsNum

/-! ### Fold-based minima and maxima

The source accumulates bounds with `Math.min` / `Math.max` starting from
`±Infinity`; over a nonempty list this is the list minimum / maximum, which
is what `minOf` / `maxOf` compute (the `[]` case returns a junk value and is
only reached behind the renderers' empty-input early returns). -/

def foldMin (v : ℚ) (l : List ℚ) : ℚ := l.foldl min v

def foldMax (v : ℚ) (l : List ℚ) : ℚ := l.foldl max v

def minOf : List ℚ → ℚ
  | [] => 0
  | x :: xs => foldMin x xs

def maxOf : List ℚ → ℚ
  | [] => 0
  | x :: xs => foldMax x xs

/-! ### External math environment

`Math.sqrt`, `Math.atan2` and `parseFloat` are library functions the
pipeline calls but does not define; they are abstracted as an environment.
Theorems needing concrete values of them state those values as hypotheses
(for example `sqrt 100 = 10`, which holds of the real square root). -/
structure JsEnv where
  sqrt : ℚ → ℚ
  atan2 : ℚ → ℚ → ℚ
  parseFloat : String → ℚ

/-! ### Data model (from the `interface` declarations in the source) -/

structure BBox where
  x1 : ℚ
  y1 : ℚ
  x2 : ℚ
  y2 : ℚ
deriving DecidableEq, Repr

structure Center where
  x : ℚ
  y : ℚ
deriving DecidableEq, Repr

/-- Legacy-schema wall record.  The source field `class` is a reserved word
in Lean and is named `cls` here. -/
structure WallData where
  cls : String
  confidence : ℚ
  bbox : BBox
  center : Center
  area : ℚ
deriving DecidableEq, Repr

structure OldJsonData where
  walls : List WallData
deriving DecidableEq, Repr

structure NewSettings where
  name : Option String := none
  type : Option String := none
  pitch : Option String := none
  area : Option ℚ := none
  linear_total : Option ℚ := none
  board_size : Option String := none
  oc_spacing : Option String := none
  direction : Option String := none
deriving DecidableEq, Repr

/-- Current-schema record.  `coordinates_real_world` is `Option`-valued to
model a missing (or `null` / non-array) field: every such value makes the
first `forEach` over it throw, see `collectCoords`.  A missing
`materialType` is modelled as `""` (both are falsy, and the code only tests
the field's falsiness). -/
structure NewRecord where
  materialType : String
  settings : NewSettings
  coordinates_real_world : Option (List (ℚ × ℚ))
  scale_factor_float : ℚ
deriving DecidableEq, Repr

structure NewJsonData where
  project_id : String
  records : List NewRecord
deriving DecidableEq, Repr

/-- `const SCALE = 1 / 12` (inches → feet). -/
def SCALE : ℚ := 1 / 12

/-- `MATERIAL_COLORS[mt] ?? MATERIAL_COLORS.default`. -/
def MATERIAL_COLORS (mt : String) : ℕ :=
  if mt = "roof_system" then 0xf97316
  else if mt = "eave_length" then 0x22d3ee
  else if mt = "ridge_length" then 0xa855f7
  else if mt = "hip_length" then 0xfbbf24
  else if mt = "valley_length" then 0x60a5fa
  else if mt = "gable_length" then 0x4ade80
  else 0xffffff

/-- `ELEVATIONS[mt] ?? ELEVATIONS.default`. -/
def ELEVATIONS (mt : String) : ℚ :=
  if mt = "roof_system" then 0
  else if mt = "eave_length" then 1 / 20
  else if mt = "valley_length" then -(1 / 20)
  else if mt = "hip_length" then 3 / 20
  else if mt = "ridge_length" then 3 / 10
  else if mt = "gable_length" then 1 / 10
  else 0

/-- The geometry primitives inserted into the `buildingGroup`.
* `box`: a legacy wall (`BoxGeometry(width, wallH, depth)` at `position`);
  width, depth and the horizontal position components live in `JsNum`
  because the legacy scale factor can be infinite.
* `polygon`: the flat `ShapeGeometry` footprint of a ≥3-point record (the
  transformed plan points), laid at elevation `elev`.
* `polyEdges`: the wireframe border added together with each polygon, at
  `elev + 0.01`, over the same points.
* `segment`: the thin box a 2-point record produces; `a`/`b` are the
  transformed endpoints it was built from, `len` the value `Math.sqrt`
  returned for the direction vector, `pos` the midpoint lifted by
  `height/2`, `rotY` the rotation `-Math.atan2(dir.z, dir.x)`. -/
inductive Prim where
  | box (width depth : JsNum) (height : ℚ) (pos : JsNum × ℚ × JsNum) (cls : String)
  | polygon (pts : List (ℚ × ℚ)) (elev : ℚ) (color : ℕ)
  | polyEdges (pts : List (ℚ × ℚ)) (elev : ℚ)
  | segment (a b : ℚ × ℚ × ℚ) (len thickness height : ℚ)
      (pos : ℚ × ℚ × ℚ) (rotY : ℚ) (color : ℕ)
deriving DecidableEq, Repr

/-- The user-visible status text, as an enumeration of the strings the
source writes to `.file-info`. -/
inductive StatusMsg where
  | loading (fileName : String)
  | parseError
  | unrecognised
  | projectLoaded (projectId : String) (n : ℕ)
  | applied (fileName : String)
deriving DecidableEq, Repr

/-- What a renderer hands to the scene/UI layer: the primitive list placed
into the scene, the per-category counts for the stats panel, and the status
text it set (`none` when it returned before setting one). -/
structure RenderOut where
  prims : List Prim
  counts : List (String × ℕ)
  status : Option StatusMsg
deriving DecidableEq, Repr

/-! ### Current-format renderer -/

/-- The first pass of `renderNewFormat` iterates
`rec.coordinates_real_world.forEach` for every record; if any record's list
is missing the `.forEach` call throws a `TypeError` (modelled as `none`).
Otherwise it visits every point, i.e. the concatenation of all the lists. -/
def collectCoords : List NewRecord → Option (List (ℚ × ℚ))
  | [] => some []
  | r :: rs =>
    match r.coordinates_real_world, collectCoords rs with
    | some l, some rest => some (l ++ rest)
    | _, _ => none

/-- `const mt = rec.materialType || 'default'`. -/
def mtName (r : NewRecord) : String :=
  if r.materialType = "" then "default" else r.materialType

/-- A record passes the `if (!pts || pts.length === 0) return;` guard. -/
def eligible (r : NewRecord) : Bool :=
  match r.coordinates_real_world with
  | some (_ :: _) => true
  | _ => false

/-- `typeCounts[mt] = (typeCounts[mt] || 0) + 1` on a JavaScript object:
an existing key is bumped in place, a new key is appended (object keys keep
insertion order). -/
def bump : List (String × ℕ) → String → List (String × ℕ)
  | [], k => [(k, 1)]
  | (k', n) :: rest, k =>
    if k' = k then (k', n + 1) :: rest else (k', n) :: bump rest k

/-- The per-category counts accumulated over the eligible records. -/
def countsOf (records : List NewRecord) : List (String × ℕ) :=
  records.foldl (fun acc r => if eligible r then bump acc (mtName r) else acc) []

/-- `toV3`: plan point → visualization space, `(x - cx) * SCALE` on x,
`(y - cy) * SCALE` on z, the given elevation on y. -/
def toV3 (cx cy : ℚ) (p : ℚ × ℚ) (z : ℚ) : ℚ × ℚ × ℚ :=
  ((p.1 - cx) * SCALE, z, (p.2 - cy) * SCALE)

/-- `renderPolygon`: the footprint shape built from the transformed points
(`moveTo`/`lineTo`/`closePath`), added as a flat mesh at `baseElev` plus a
wireframe border at `baseElev + 0.01`.  The `pitch` argument is received
but not used, exactly as in the source (`_pitch`). -/
def renderPolygon (pts : List (ℚ × ℚ)) (cx cy : ℚ) (_pitch : ℚ)
    (color : ℕ) (baseElev : ℚ) : List Prim :=
  let shapePts := pts.map (fun p => ((p.1 - cx) * SCALE, (p.2 - cy) * SCALE))
  [Prim.polygon shapePts baseElev color, Prim.polyEdges shapePts (baseElev + 1 / 100)]

/-- `renderLine`: direction vector, its length via `Math.sqrt`, the
epsilon skip, category-dependent thickness/height, midpoint position lifted
by `height/2`, and rotation `-Math.atan2(dir.z, dir.x)` about the up axis. -/
def renderLine (env : JsEnv) (a b : ℚ × ℚ × ℚ) (color : ℕ) (ty : String) :
    List Prim :=
  let dir : ℚ × ℚ × ℚ := (b.1 - a.1, b.2.1 - a.2.1, b.2.2 - a.2.2)
  let length := env.sqrt (dir.1 * dir.1 + dir.2.1 * dir.2.1 + dir.2.2 * dir.2.2)
  if length < 1 / 1000 then []
  else
    let thickness : ℚ := if ty = "ridge_length" then 1 / 4 else 3 / 20
    let height : ℚ := if ty = "ridge_length" then 3 / 10 else 3 / 25
    let pos : ℚ × ℚ × ℚ :=
      ((a.1 + b.1) / 2, (a.2.1 + b.2.1) / 2 + height / 2, (a.2.2 + b.2.2) / 2)
    let rotY := -(env.atan2 dir.2.2 dir.1)
    [Prim.segment a b length thickness height pos rotY color]

/-- The geometry one record contributes in the second pass of
`renderNewFormat`: the `!pts`/empty guard, then dispatch on the point
count (≥3 → polygon, =2 → line, 1 → nothing).  The `none` branch is
unreachable behind a successful first pass but mirrors the `!pts` test. -/
def recPrims (env : JsEnv) (cx cy : ℚ) (r : NewRecord) : List Prim :=
  match r.coordinates_real_world with
  | none => []
  | some pts =>
    let mt := mtName r
    let color := MATERIAL_COLORS mt
    let elev := ELEVATIONS mt
    let pitch := env.parseFloat
      (match r.settings.pitch with
       | none => "4"
       | some s => if s = "" then "4" else s)
    match pts with
    | [] => []
    | [_] => []
    | [p, q] => renderLine env (toV3 cx cy p elev) (toV3 cx cy q elev) color mt
    | _ :: _ :: _ :: _ => renderPolygon pts cx cy pitch color elev

/-- `renderNewFormat`.  The caller has already cleared the scene (the
function's own `clearScene()` call is modelled at the `handleFileUpload`
level, where the scene state lives).  An empty record list returns before
the stats/status updates.  A record with a missing coordinate list makes
the bounds pass throw (`Except.error`), which the upload handler's `catch`
turns into a parse-error status.  The second pass both counts eligible
records and emits their geometry; the two accumulations do not interact and
are modelled as `countsOf` and a `flatMap`. -/
def renderNewFormat (env : JsEnv) (data : NewJsonData) : Except Unit RenderOut :=
  if data.records.length = 0 then .ok ⟨[], [], none⟩
  else
    match collectCoords data.records with
    | none => .error ()
    | some allPts =>
      let minX := minOf (allPts.map Prod.fst)
      let maxX := maxOf (allPts.map Prod.fst)
      let minY := minOf (allPts.map Prod.snd)
      let maxY := maxOf (allPts.map Prod.snd)
      let cx := (minX + maxX) / 2
      let cy := (minY + maxY) / 2
      .ok ⟨data.records.flatMap (recPrims env cx cy),
           countsOf data.records,
           some (.projectLoaded data.project_id data.records.length)⟩

/-! ### Legacy-format renderer -/

/-- All x corner values visited by the legacy bounds pass. -/
def cornersX (walls : List WallData) : List ℚ :=
  walls.flatMap (fun w => [w.bbox.x1, w.bbox.x2])

/-- All y corner values visited by the legacy bounds pass. -/
def cornersY (walls : List WallData) : List ℚ :=
  walls.flatMap (fun w => [w.bbox.y1, w.bbox.y2])

/-- `size = Math.max(maxX - minX, maxY - minY)` over the bbox corners. -/
def oldSize (walls : List WallData) : ℚ :=
  max (maxOf (cornersX walls) - minOf (cornersX walls))
      (maxOf (cornersY walls) - minOf (cornersY walls))

/-- `const sc = 50 / size` — unguarded JavaScript division, so a zero
extent yields `Infinity`. -/
def oldScale (walls : List WallData) : JsNum :=
  JsNum.div (.num 50) (.num (oldSize walls))

/-- `const wallH = 2.5`. -/
def wallH : ℚ := 5 / 2

/-- One legacy wall's box: `Math.abs(x2-x1) * sc || 0.1` width,
`Math.abs(y2-y1) * sc || 0.1` depth, fixed height, position
`((center.x - cx) * sc, wallH / 2, (center.y - cy) * sc)`. -/
def wallBox (sc : JsNum) (cx cy : ℚ) (w : WallData) : Prim :=
  let width := JsNum.orElse (JsNum.mul (.num |w.bbox.x2 - w.bbox.x1|) sc) (.num (1 / 10))
  let depth := JsNum.orElse (JsNum.mul (.num |w.bbox.y2 - w.bbox.y1|) sc) (.num (1 / 10))
  Prim.box width depth wallH
    (JsNum.mul (.num (w.center.x - cx)) sc, wallH / 2,
     JsNum.mul (.num (w.center.y - cy)) sc)
    w.cls

/-- `renderOldFormat` (scene clearing modelled at the upload level, as for
the current format).  An empty wall list returns before the stats/status
updates. -/
def renderOldFormat (data : OldJsonData) (fileName : String) : RenderOut :=
  if data.walls.length = 0 then ⟨[], [], none⟩
  else
    let minX := minOf (cornersX data.walls)
    let maxX := maxOf (cornersX data.walls)
    let minY := minOf (cornersY data.walls)
    let maxY := maxOf (cornersY data.walls)
    let cx := (minX + maxX) / 2
    let cy := (minY + maxY) / 2
    let sc := oldScale data.walls
    ⟨data.walls.map (wallBox sc cx cy),
     [("walls", data.walls.length)],
     some (.applied fileName)⟩

/-! ### Upload handling -/

/-- `handleFileUpload`, as a transition on the scene's primitive set.
`parsed = none` models `JSON.parse` throwing.  The decoders stand for the
unchecked `data as NewJsonData` / `data as OldJsonData` casts (the source
performs no validation beyond the schema check; the decoders are quantified
over in the theorems, so nothing proved depends on their behaviour).
The scene is only cleared inside the two renderers, so the failure branches
leave the previous primitives in place; a throw inside `renderNewFormat`
happens after its `clearScene()`, leaving an empty scene. -/
def handleFileUpload (env : JsEnv)
    (decodeNew : Json → NewJsonData) (decodeOld : Json → OldJsonData)
    (prev : List Prim) (fileName : String) (parsed : Option Json) :
    List Prim × StatusMsg :=
  match parsed with
  | none => (prev, .parseError)
  | some v =>
    match detectSchema v with
    | .error _ => (prev, .parseError)
    | .ok .unrecognized => (prev, .unrecognised)
    | .ok .currentRecords =>
      match renderNewFormat env (decodeNew v) with
      | .error _ => ([], .parseError)
      | .ok out => (out.prims, out.status.getD (.loading fileName))
    | .ok .legacyWalls =>
      let out := renderOldFormat (decodeOld v) fileName
      (out.prims, out.status.getD (.loading fileName))

/-! ### Derived inspection helpers used by the claims -/

/-- The primitive list of a render result (`[]` when the renderer threw —
nothing was emitted). -/
def primsOf : Except Unit RenderOut → List Prim
  | .ok o => o.prims
  | .error _ => []

/-- The horizontal (plan) coordinates a primitive contributes when bounds
are re-derived from the synthesized geometry: a box contributes its
position (when finite), a polygon its footprint points, a segment its two
endpoints.  The wireframe border duplicates its polygon's points and is
skipped. -/
def gatherXZ : Prim → List (ℚ × ℚ)
  | .box _ _ _ (px, _, pz) _ =>
    match px, pz with
    | .num x, .num z => [(x, z)]
    | _, _ => []
  | .polygon pts _ _ => pts
  | .polyEdges _ _ => []
  | .segment a b _ _ _ _ _ _ => [(a.1, a.2.2), (b.1, b.2.2)]

def gatherAll (prims : List Prim) : List (ℚ × ℚ) :=
  prims.flatMap gatherXZ

/-- Center of the axis-aligned bounding box of a point set. -/
def recompCenter (l : List (ℚ × ℚ)) : Option (ℚ × ℚ) :=
  match l with
  | [] => none
  | _ :: _ =>
    some ((minOf (l.map Prod.fst) + maxOf (l.map Prod.fst)) / 2,
          (minOf (l.map Prod.snd) + maxOf (l.map Prod.snd)) / 2)

/-- The x-interval a box covers: its position extended by half its width
(defined only when both are finite). -/
def boxIntX : Prim → Option (ℚ × ℚ)
  | .box w _ _ (px, _, _) _ =>
    match w, px with
    | .num w', .num p => some (p - w' / 2, p + w' / 2)
    | _, _ => none
  | _ => none

/-- The z-interval a box covers: its position extended by half its depth. -/
def boxIntZ : Prim → Option (ℚ × ℚ)
  | .box _ d _ (_, _, pz) _ =>
    match d, pz with
    | .num d', .num p => some (p - d' / 2, p + d' / 2)
    | _, _ => none
  | _ => none

/-- Extent spanned by a list of intervals (none when any box is
non-finite). -/
def spanOf (f : Prim → Option (ℚ × ℚ)) (prims : List Prim) : Option ℚ :=
  (prims.mapM f).map
    (fun ivs => maxOf (ivs.map Prod.snd) - minOf (ivs.map Prod.fst))

/-- The box the specification's synthesis rule describes for one legacy
wall, written from the claim's words: `width = |x2-x1| * scale` and
`depth = |y2-y1| * scale`, each replaced by `0.1` when zero, height `2.5`,
position `((center.x - cx) * scale, height/2, (center.y - cy) * scale)`. -/
def claimWallBox (s cx cy : ℚ) (w : WallData) : Prim :=
  Prim.box
    (if |w.bbox.x2 - w.bbox.x1| * s = 0 then .num (1 / 10)
     else .num (|w.bbox.x2 - w.bbox.x1| * s))
    (if |w.bbox.y2 - w.bbox.y1| * s = 0 then .num (1 / 10)
     else .num (|w.bbox.y2 - w.bbox.y1| * s))
    (5 / 2)
    (.num ((w.center.x - cx) * s), 5 / 4, .num ((w.center.y - cy) * s))
    w.cls

/-- A point list whose record emits geometry that covers all of its
points: either at least three points (a polygon) or exactly two whose
transformed distance is not below the `0.001` epsilon (a segment).  The
square of the distance is written out because `renderLine` feeds exactly
that sum of products to `Math.sqrt`; the midpoint terms cancel, so the
condition does not depend on the bounds center. -/
def emitsGeometry (env : JsEnv) (l : List (ℚ × ℚ)) : Prop :=
  3 ≤ l.length ∨ ∃ p q, l = [p, q] ∧
    ¬ env.sqrt ((q.1 - p.1) * SCALE * ((q.1 - p.1) * SCALE)
        + (q.2 - p.2) * SCALE * ((q.2 - p.2) * SCALE)) < 1 / 1000

/-- The x-interval of the box the specification describes for a wall
(position ± half width). -/
def claimIntX (s cx : ℚ) (w : WallData) : ℚ × ℚ :=
  ((w.center.x - cx) * s -
    (if |w.bbox.x2 - w.bbox.x1| * s = 0 then 1 / 10
     else |w.bbox.x2 - w.bbox.x1| * s) / 2,
   (w.center.x - cx) * s +
    (if |w.bbox.x2 - w.bbox.x1| * s = 0 then 1 / 10
     else |w.bbox.x2 - w.bbox.x1| * s) / 2)

/-- The z-interval of the box the specification describes for a wall
(position ± half depth). -/
def claimIntZ (s cy : ℚ) (w : WallData) : ℚ × ℚ :=
  ((w.center.y - cy) * s -
    (if |w.bbox.y2 - w.bbox.y1| * s = 0 then 1 / 10
     else |w.bbox.y2 - w.bbox.y1| * s) / 2,
   (w.center.y - cy) * s +
    (if |w.bbox.y2 - w.bbox.y1| * s = 0 then 1 / 10
     else |w.bbox.y2 - w.bbox.y1| * s) / 2)

/-- Two current-schema records that agree on everything except possibly
`settings.pitch`. -/
def pitchOnlyDiff (r1 r2 : NewRecord) : Prop :=
  r1.materialType = r2.materialType ∧
  r1.coordinates_real_world = r2.coordinates_real_world ∧
  r1.scale_factor_float = r2.scale_factor_float ∧
  r1.settings.name = r2.settings.name ∧
  r1.settings.type = r2.settings.type ∧
  r1.settings.area = r2.settings.area ∧
  r1.settings.linear_total = r2.settings.linear_total ∧
  r1.settings.board_size = r2.settings.board_size ∧
  r1.settings.oc_spacing = r2.settings.oc_spacing ∧
  r1.settings.direction = r2.settings.direction

/-! ### Concrete inputs used by counterexamples and witnesses -/

/-- A concrete environment agreeing with the real `Math.sqrt` at `0` and
`100` and with `Math.atan2` at `(0, 10)`, the only points the concrete
inputs below evaluate them at. -/
def env0 : JsEnv :=
  ⟨fun q => if q = 100 then 10 else 0, fun _ _ => 0, fun _ => 4⟩

/-- A wall whose bbox is the single point `(2, 3)` (zero extent). -/
def wallPoint : WallData := ⟨"perimeter_wall", 1, ⟨2, 3, 2, 3⟩, ⟨2, 3⟩, 0⟩

/-- The specification's legacy example: one wall, bbox `(0,0)-(10,0)`,
center `(5,0)`. -/
def wallExample : WallData := ⟨"perimeter_wall", 1, ⟨0, 0, 10, 0⟩, ⟨5, 0⟩, 0⟩

/-- A wall whose `center` field is far away from its bbox. -/
def wallFarCenter : WallData := ⟨"interior_wall", 1, ⟨0, 0, 10, 10⟩, ⟨1000, 0⟩, 0⟩

/-- A wall whose `center` agrees with its bbox center. -/
def wallAtOrigin : WallData := ⟨"interior_wall", 1, ⟨0, 0, 10, 10⟩, ⟨5, 5⟩, 0⟩

/-- The specification's current-schema example: a single `ridge_length`
record from `(0,0)` to `(120,0)`. -/
def recRidge : NewRecord := ⟨"ridge_length", {}, some [(0, 0), (120, 0)], 1⟩

/-- A record whose coordinate list is missing. -/
def recNoCoords : NewRecord := ⟨"eave_length", {}, none, 1⟩

/-- A record with a single coordinate point. -/
def recOnePoint : NewRecord := ⟨"hip_length", {}, some [(7, 9)], 1⟩

/-- A record with an empty (but present) coordinate list. -/
def recEmptyPts : NewRecord := ⟨"gable_length", {}, some [], 1⟩

/-- A triangle roof-panel record (pitch absent). -/
def recTriA : NewRecord := ⟨"roof_system", {}, some [(0, 0), (10, 12), (20, 0)], 1⟩

/-- The same triangle with `settings.pitch` set. -/
def recTriB : NewRecord :=
  ⟨"roof_system", { pitch := some "9" }, some [(0, 0), (10, 12), (20, 0)], 1⟩

/-- A previously rendered scene (one primitive), for the upload claims. -/
def prevScene : List Prim := [Prim.polygon [(0, 0), (1, 0), (0, 1)] 0 0xffffff]

/-- A parsed value of neither schema. -/
def unrecValue : Json := Json.obj [("foo", Json.num 1)]

/-! ## Helper lemmas -/

theorem truthy_and_isArray (j : Json) : (truthy j && isArray j) = isArray j := by
  cases j <;> simp [truthy, isArray]

theorem fieldTruthyArray_eq_hasSeqField (v : Json) (k : String) :
    fieldTruthyArray v k = hasSeqField v k := by
  unfold fieldTruthyArray hasSeqField
  rcases h : getField v k with _ | j
  · rfl
  · cases j <;> simp [truthy, isArray]

theorem foldMin_le_init (v : ℚ) (l : List ℚ) : foldMin v l ≤ v := by
  induction l generalizing v with
  | nil => simp [foldMin]
  | cons x xs ih =>
    have h := ih (min v x)
    calc foldMin v (x :: xs) = foldMin (min v x) xs := rfl
      _ ≤ min v x := h
      _ ≤ v := min_le_left _ _

theorem foldMin_le_mem {x : ℚ} (v : ℚ) {l : List ℚ} (hx : x ∈ l) :
    foldMin v l ≤ x := by
  induction l generalizing v with
  | nil => cases hx
  | cons y ys ih =>
    rcases List.mem_cons.mp hx with rfl | hmem
    · calc foldMin v (x :: ys) = foldMin (min v x) ys := rfl
        _ ≤ min v x := foldMin_le_init _ _
        _ ≤ x := min_le_right _ _
    · exact ih _ hmem

theorem le_foldMin {L v : ℚ} {l : List ℚ} (hv : L ≤ v) (hl : ∀ x ∈ l, L ≤ x) :
    L ≤ foldMin v l := by
  induction l generalizing v with
  | nil => exact hv
  | cons y ys ih =>
    have hy : L ≤ y := hl y (by simp)
    exact ih (le_min hv hy) (fun x hx => hl x (by simp [hx]))

theorem init_le_foldMax (v : ℚ) (l : List ℚ) : v ≤ foldMax v l := by
  induction l generalizing v with
  | nil => simp [foldMax]
  | cons x xs ih =>
    have h := ih (max v x)
    calc v ≤ max v x := le_max_left _ _
      _ ≤ foldMax (max v x) xs := h
      _ = foldMax v (x :: xs) := rfl

theorem mem_le_foldMax {x : ℚ} (v : ℚ) {l : List ℚ} (hx : x ∈ l) :
    x ≤ foldMax v l := by
  induction l generalizing v with
  | nil => cases hx
  | cons y ys ih =>
    rcases List.mem_cons.mp hx with rfl | hmem
    · calc x ≤ max v x := le_max_right _ _
        _ ≤ foldMax (max v x) ys := init_le_foldMax _ _
        _ = foldMax v (x :: ys) := rfl
    · exact ih _ hmem

theorem foldMax_le {U v : ℚ} {l : List ℚ} (hv : v ≤ U) (hl : ∀ x ∈ l, x ≤ U) :
    foldMax v l ≤ U := by
  induction l generalizing v with
  | nil => exact hv
  | cons y ys ih =>
    have hy : y ≤ U := hl y (by simp)
    exact ih (max_le hv hy) (fun x hx => hl x (by simp [hx]))

theorem minOf_le_mem {x : ℚ} {l : List ℚ} (hx : x ∈ l) : minOf l ≤ x := by
  cases l with
  | nil => cases hx
  | cons y ys =>
    rcases List.mem_cons.mp hx with rfl | hmem
    · exact foldMin_le_init _ _
    · exact foldMin_le_mem _ hmem

theorem mem_le_maxOf {x : ℚ} {l : List ℚ} (hx : x ∈ l) : x ≤ maxOf l := by
  cases l with
  | nil => cases hx
  | cons y ys =>
    rcases List.mem_cons.mp hx with rfl | hmem
    · exact init_le_foldMax _ _
    · exact mem_le_foldMax _ hmem

theorem le_minOf {L : ℚ} {l : List ℚ} (hne : l ≠ []) (hl : ∀ x ∈ l, L ≤ x) :
    L ≤ minOf l := by
  cases l with
  | nil => exact absurd rfl hne
  | cons y ys =>
    exact le_foldMin (hl y (by simp)) (fun x hx => hl x (by simp [hx]))

theorem maxOf_le {U : ℚ} {l : List ℚ} (hne : l ≠ []) (hl : ∀ x ∈ l, x ≤ U) :
    maxOf l ≤ U := by
  cases l with
  | nil => exact absurd rfl hne
  | cons y ys =>
    exact foldMax_le (hl y (by simp)) (fun x hx => hl x (by simp [hx]))

theorem minOf_le_maxOf {l : List ℚ} (hne : l ≠ []) : minOf l ≤ maxOf l := by
  cases l with
  | nil => exact absurd rfl hne
  | cons y ys =>
    calc minOf (y :: ys) ≤ y := foldMin_le_init _ _
      _ ≤ maxOf (y :: ys) := init_le_foldMax _ _

theorem minOf_eq_of_all {l : List ℚ} {c : ℚ} (hne : l ≠ [])
    (h : ∀ x ∈ l, x = c) : minOf l = c := by
  rcases l with _ | ⟨y, ys⟩
  · exact absurd rfl hne
  · refine le_antisymm ?_ ?_
    · exact le_of_le_of_eq (minOf_le_mem (List.mem_cons_self y ys))
        (h y (List.mem_cons_self y ys))
    · exact le_minOf hne (fun x hx => le_of_eq (h x hx).symm)

theorem maxOf_eq_of_all {l : List ℚ} {c : ℚ} (hne : l ≠ [])
    (h : ∀ x ∈ l, x = c) : maxOf l = c := by
  rcases l with _ | ⟨y, ys⟩
  · exact absurd rfl hne
  · refine le_antisymm ?_ ?_
    · exact maxOf_le hne (fun x hx => le_of_eq (h x hx))
    · exact le_of_eq_of_le (h y (List.mem_cons_self y ys)).symm
        (mem_le_maxOf (List.mem_cons_self y ys))

theorem mul_num_inf_not_finite (q : ℚ) (p : Bool) :
    (JsNum.mul (.num q) (.inf p)).isFinite = false := by
  simp only [JsNum.mul]
  split_ifs <;> rfl

theorem cornersX_ne_nil {walls : List WallData} (h : walls ≠ []) :
    cornersX walls ≠ [] := by
  rcases walls with _ | ⟨w, ws⟩
  · exact absurd rfl h
  · simp [cornersX]

theorem cornersY_ne_nil {walls : List WallData} (h : walls ≠ []) :
    cornersY walls ≠ [] := by
  rcases walls with _ | ⟨w, ws⟩
  · exact absurd rfl h
  · simp [cornersY]

theorem mem_cornersX {x : ℚ} {walls : List WallData} :
    x ∈ cornersX walls ↔ ∃ w ∈ walls, x = w.bbox.x1 ∨ x = w.bbox.x2 := by
  simp only [cornersX, List.mem_flatMap, List.mem_cons, List.mem_singleton,
    List.not_mem_nil, or_false]

theorem mem_cornersY {y : ℚ} {walls : List WallData} :
    y ∈ cornersY walls ↔ ∃ w ∈ walls, y = w.bbox.y1 ∨ y = w.bbox.y2 := by
  simp only [cornersY, List.mem_flatMap, List.mem_cons, List.mem_singleton,
    List.not_mem_nil, or_false]

/-- With a nonzero extent the unguarded division produces an ordinary
finite scale factor. -/
theorem oldScale_num {walls : List WallData} (h : oldSize walls ≠ 0) :
    oldScale walls = .num (50 / oldSize walls) := by
  simp [oldScale, JsNum.div, h]

/-- With a finite scale factor, the wall box built by the code is exactly
the box the specification describes (`|| 0.1` coincides with
"replaced by 0.1 when zero" because a finite product is falsy exactly when
it is zero). -/
theorem wallBox_num (s cx cy : ℚ) (w : WallData) :
    wallBox (.num s) cx cy w = claimWallBox s cx cy w := by
  unfold wallBox claimWallBox
  by_cases hx : |w.bbox.x2 - w.bbox.x1| * s = 0 <;>
    by_cases hy : |w.bbox.y2 - w.bbox.y1| * s = 0 <;>
      simp [JsNum.mul, JsNum.orElse, JsNum.falsy, hx, hy, wallH] <;> norm_num

/-- Two record lists related by `pitchOnlyDiff` feed identical point lists
to the bounds pass. -/
theorem collectCoords_congr {rs1 rs2 : List NewRecord}
    (h : List.Forall₂ pitchOnlyDiff rs1 rs2) :
    collectCoords rs1 = collectCoords rs2 := by
  induction h with
  | nil => rfl
  | cons hr _ ih =>
    simp only [collectCoords]
    rw [hr.2.1, ih]

/-- The geometry a record emits does not depend on its `settings.pitch`:
the parsed pitch is passed to `renderPolygon`, which discards it. -/
theorem recPrims_congr (env : JsEnv) (cx cy : ℚ) {r1 r2 : NewRecord}
    (h : pitchOnlyDiff r1 r2) :
    recPrims env cx cy r1 = recPrims env cx cy r2 := by
  obtain ⟨hmt, hco, -⟩ := h
  simp only [recPrims, mtName, hmt, hco, renderPolygon]

theorem flatMap_recPrims_congr (env : JsEnv) (cx cy : ℚ)
    {rs1 rs2 : List NewRecord} (h : List.Forall₂ pitchOnlyDiff rs1 rs2) :
    rs1.flatMap (recPrims env cx cy) = rs2.flatMap (recPrims env cx cy) := by
  induction h with
  | nil => rfl
  | cons hr _ ih =>
    simp only [List.flatMap_cons]
    rw [recPrims_congr env cx cy hr, ih]

/-- A record with a missing coordinate list makes the bounds pass throw. -/
theorem collectCoords_none {rs : List NewRecord}
    (h : ∃ r ∈ rs, r.coordinates_real_world = none) :
    collectCoords rs = none := by
  induction rs with
  | nil =>
    rcases h with ⟨r, hr, _⟩
    cases hr
  | cons r rest ih =>
    rcases h with ⟨r', hr', hn⟩
    rcases List.mem_cons.mp hr' with rfl | hmem
    · simp only [collectCoords, hn]
    · have hrec := ih ⟨r', hmem, hn⟩
      simp only [collectCoords, hrec]
      rcases r.coordinates_real_world with _ | l <;> rfl

theorem min_affine (c s : ℚ) (hs : 0 ≤ s) (p q : ℚ) :
    min ((p - c) * s) ((q - c) * s) = (min p q - c) * s := by
  rcases le_total p q with h | h
  · rw [min_eq_left h,
      min_eq_left (mul_le_mul_of_nonneg_right (sub_le_sub_right h c) hs)]
  · rw [min_eq_right h,
      min_eq_right (mul_le_mul_of_nonneg_right (sub_le_sub_right h c) hs)]

theorem max_affine (c s : ℚ) (hs : 0 ≤ s) (p q : ℚ) :
    max ((p - c) * s) ((q - c) * s) = (max p q - c) * s := by
  rcases le_total p q with h | h
  · rw [max_eq_right h,
      max_eq_right (mul_le_mul_of_nonneg_right (sub_le_sub_right h c) hs)]
  · rw [max_eq_left h,
      max_eq_left (mul_le_mul_of_nonneg_right (sub_le_sub_right h c) hs)]

theorem foldMin_affine (c s : ℚ) (hs : 0 ≤ s) (l : List ℚ) :
    ∀ v, foldMin ((v - c) * s) (l.map (fun x => (x - c) * s)) =
      (foldMin v l - c) * s := by
  induction l with
  | nil => intro v; rfl
  | cons x xs ih =>
    intro v
    calc foldMin ((v - c) * s) ((x :: xs).map (fun x => (x - c) * s))
        = foldMin (min ((v - c) * s) ((x - c) * s))
            (xs.map (fun x => (x - c) * s)) := rfl
      _ = foldMin ((min v x - c) * s) (xs.map (fun x => (x - c) * s)) := by
            rw [min_affine c s hs]
      _ = (foldMin (min v x) xs - c) * s := ih _
      _ = (foldMin v (x :: xs) - c) * s := rfl

theorem foldMax_affine (c s : ℚ) (hs : 0 ≤ s) (l : List ℚ) :
    ∀ v, foldMax ((v - c) * s) (l.map (fun x => (x - c) * s)) =
      (foldMax v l - c) * s := by
  induction l with
  | nil => intro v; rfl
  | cons x xs ih =>
    intro v
    calc foldMax ((v - c) * s) ((x :: xs).map (fun x => (x - c) * s))
        = foldMax (max ((v - c) * s) ((x - c) * s))
            (xs.map (fun x => (x - c) * s)) := rfl
      _ = foldMax ((max v x - c) * s) (xs.map (fun x => (x - c) * s)) := by
            rw [max_affine c s hs]
      _ = (foldMax (max v x) xs - c) * s := ih _
      _ = (foldMax v (x :: xs) - c) * s := rfl

theorem minOf_affine (c s : ℚ) (hs : 0 ≤ s) {l : List ℚ} (hne : l ≠ []) :
    minOf (l.map (fun x => (x - c) * s)) = (minOf l - c) * s := by
  rcases l with _ | ⟨y, ys⟩
  · exact absurd rfl hne
  · simpa only [List.map_cons, minOf] using foldMin_affine c s hs ys y

theorem maxOf_affine (c s : ℚ) (hs : 0 ≤ s) {l : List ℚ} (hne : l ≠ []) :
    maxOf (l.map (fun x => (x - c) * s)) = (maxOf l - c) * s := by
  rcases l with _ | ⟨y, ys⟩
  · exact absurd rfl hne
  · simpa only [List.map_cons, maxOf] using foldMax_affine c s hs ys y

/-- A segment whose transformed length is not below the epsilon is emitted
with the two transformed endpoints stored in it. -/
theorem renderLine_emits (env : JsEnv) (cx cy elev : ℚ) (p q : ℚ × ℚ)
    (color : ℕ) (ty : String)
    (h : ¬ env.sqrt ((q.1 - p.1) * SCALE * ((q.1 - p.1) * SCALE)
          + (q.2 - p.2) * SCALE * ((q.2 - p.2) * SCALE)) < 1 / 1000) :
    ∃ len th hh pos rot,
      renderLine env (toV3 cx cy p elev) (toV3 cx cy q elev) color ty =
        [Prim.segment (toV3 cx cy p elev) (toV3 cx cy q elev)
          len th hh pos rot color] := by
  simp only [renderLine, toV3]
  rw [show ((q.1 - cx) * SCALE - (p.1 - cx) * SCALE) *
        ((q.1 - cx) * SCALE - (p.1 - cx) * SCALE)
      + (elev - elev) * (elev - elev)
      + ((q.2 - cy) * SCALE - (p.2 - cy) * SCALE) *
        ((q.2 - cy) * SCALE - (p.2 - cy) * SCALE)
      = (q.1 - p.1) * SCALE * ((q.1 - p.1) * SCALE)
        + (q.2 - p.2) * SCALE * ((q.2 - p.2) * SCALE) from by ring]
  rw [if_neg h]
  exact ⟨_, _, _, _, _, rfl⟩

/-- An emitting record contributes exactly its transformed point list to
the re-derived bounds. -/
theorem gather_recPrims (env : JsEnv) (cx cy : ℚ) (r : NewRecord)
    (l : List (ℚ × ℚ)) (hco : r.coordinates_real_world = some l)
    (hemit : emitsGeometry env l) :
    (recPrims env cx cy r).flatMap gatherXZ =
      l.map (fun p => ((p.1 - cx) * SCALE, (p.2 - cy) * SCALE)) := by
  rcases hemit with hlen | ⟨p, q, rfl, hfar⟩
  · rcases l with _ | ⟨p1, _ | ⟨p2, _ | ⟨p3, rest⟩⟩⟩
    · simp at hlen
    · simp at hlen
    · simp at hlen
    · simp only [recPrims, hco, renderPolygon, gatherAll, List.flatMap_cons,
        List.flatMap_nil, gatherXZ, List.append_nil]
  · obtain ⟨len, th, hh, pos, rot, hline⟩ :=
      renderLine_emits env cx cy (ELEVATIONS (mtName r)) p q
        (MATERIAL_COLORS (mtName r)) (mtName r) hfar
    simp only [recPrims, hco]
    rw [hline]
    simp only [List.flatMap_cons, List.flatMap_nil, gatherXZ, List.append_nil,
      toV3, List.map_cons, List.map_nil]

/-- Over an upload in which every record emits geometry, re-deriving the
point set from the synthesized primitives recovers exactly the transformed
input points. -/
theorem gather_flatMap (env : JsEnv) (cx cy : ℚ) :
    ∀ (rs : List NewRecord) (allPts : List (ℚ × ℚ)),
      collectCoords rs = some allPts →
      (∀ r ∈ rs, ∃ l, r.coordinates_real_world = some l ∧ emitsGeometry env l) →
      (rs.flatMap (recPrims env cx cy)).flatMap gatherXZ =
        allPts.map (fun p => ((p.1 - cx) * SCALE, (p.2 - cy) * SCALE)) := by
  intro rs
  induction rs with
  | nil =>
    intro allPts hcc _
    simp only [collectCoords, Option.some.injEq] at hcc
    subst hcc
    rfl
  | cons r rest ih =>
    intro allPts hcc hall
    obtain ⟨l, hco, hemit⟩ := hall r (List.mem_cons_self r rest)
    rcases hrest : collectCoords rest with _ | restPts
    · rw [collectCoords, hco, hrest] at hcc
      cases hcc
    · rw [collectCoords, hco, hrest] at hcc
      rcases hcc with ⟨rfl⟩
      have hrestAll : ∀ r' ∈ rest, ∃ l',
          r'.coordinates_real_world = some l' ∧ emitsGeometry env l' :=
        fun r' hr' => hall r' (List.mem_cons_of_mem r hr')
      simp only [List.flatMap_cons, List.flatMap_append, List.map_append]
      rw [gather_recPrims env cx cy r l hco hemit, ih restPts hrest hrestAll]

/-- If every record's coordinate list is present, the bounds pass does not
throw. -/
theorem collectCoords_some {rs : List NewRecord}
    (h : ∀ r ∈ rs, ∃ l, r.coordinates_real_world = some l) :
    ∃ allPts, collectCoords rs = some allPts := by
  induction rs with
  | nil => exact ⟨[], rfl⟩
  | cons r rest ih =>
    obtain ⟨l, hco⟩ := h r (List.mem_cons_self r rest)
    obtain ⟨restPts, hrest⟩ := ih (fun r' hr' => h r' (List.mem_cons_of_mem r hr'))
    exact ⟨l ++ restPts, by rw [collectCoords, hco, hrest]⟩

/-- With a nonzero extent, the legacy renderer's primitives are exactly the
specification's boxes. -/
theorem renderOld_prims_eq (d : OldJsonData) (name : String)
    (h : oldSize d.walls ≠ 0) :
    (renderOldFormat d name).prims =
      d.walls.map (claimWallBox (50 / oldSize d.walls)
        ((minOf (cornersX d.walls) + maxOf (cornersX d.walls)) / 2)
        ((minOf (cornersY d.walls) + maxOf (cornersY d.walls)) / 2)) := by
  by_cases hlen : d.walls.length = 0
  · rw [List.length_eq_zero] at hlen
    rw [renderOldFormat]
    simp [hlen]
  · rw [renderOldFormat, if_neg hlen]
    rw [oldScale_num h]
    exact List.map_congr_left (fun w _ => wallBox_num _ _ _ w)

theorem mapM_map_some {α β γ : Type} (g : α → β) (f : β → Option γ)
    (k : α → γ) (l : List α) (h : ∀ x ∈ l, f (g x) = some (k x)) :
    (l.map g).mapM f = some (l.map k) := by
  induction l with
  | nil => rfl
  | cons x xs ih =>
    simp only [List.map_cons, List.mapM_cons, h x (by simp),
      ih (fun y hy => h y (by simp [hy]))]
    rfl

theorem mid_sub_half_abs (x1 x2 : ℚ) :
    (x1 + x2) / 2 - |x2 - x1| / 2 = min x1 x2 := by
  rcases le_total x1 x2 with h | h
  · rw [abs_of_nonneg (by linarith), min_eq_left h]
    ring
  · rw [abs_of_nonpos (by linarith), min_eq_right h]
    ring

theorem mid_add_half_abs (x1 x2 : ℚ) :
    (x1 + x2) / 2 + |x2 - x1| / 2 = max x1 x2 := by
  rcases le_total x1 x2 with h | h
  · rw [abs_of_nonneg (by linarith), max_eq_right h]
    ring
  · rw [abs_of_nonpos (by linarith), max_eq_left h]
    ring

theorem boxIntX_claim (s cx cy : ℚ) (w : WallData) :
    boxIntX (claimWallBox s cx cy w) = some (claimIntX s cx w) := by
  by_cases h : |w.bbox.x2 - w.bbox.x1| * s = 0 <;>
    by_cases h' : |w.bbox.y2 - w.bbox.y1| * s = 0 <;>
      simp [claimWallBox, boxIntX, claimIntX, h, h']

theorem boxIntZ_claim (s cx cy : ℚ) (w : WallData) :
    boxIntZ (claimWallBox s cx cy w) = some (claimIntZ s cy w) := by
  by_cases h : |w.bbox.x2 - w.bbox.x1| * s = 0 <;>
    by_cases h' : |w.bbox.y2 - w.bbox.y1| * s = 0 <;>
      simp [claimWallBox, boxIntZ, claimIntZ, h, h']

/-! ## Claims -/

/-- **C3** (amended): for every parsed JSON value other than `null`, schema
classification follows the specification's rule exactly (`records` checked
first, then `walls`, else unrecognized). -/
theorem c3_theorem (v : Json) (hv : v ≠ Json.null) :
    detectSchema v = .ok (specSchemaRule v) := by
  have step : ∀ w : Json,
      (if fieldTruthyArray w "records" then Except.ok (ε := Unit) Schema.currentRecords
       else if fieldTruthyArray w "walls" then .ok .legacyWalls
       else .ok .unrecognized) = .ok (specSchemaRule w) := by
    intro w
    rw [specSchemaRule, fieldTruthyArray_eq_hasSeqField, fieldTruthyArray_eq_hasSeqField]
    split_ifs <;> rfl
  cases v with
  | null => exact absurd rfl hv
  | bool b => exact step (Json.bool b)
  | num q => exact step (Json.num q)
  | str s => exact step (Json.str s)
  | arr l => exact step (Json.arr l)
  | obj fs => exact step (Json.obj fs)

/-- **C3** counterexample: the parsed value `null` is not classified at
all — the field access `data.records` throws, and the handler reports a
parse failure, although the specification's rule would classify `null` as
`Unrecognized`. -/
theorem c3_counterexample :
    detectSchema Json.null = .error () ∧
    specSchemaRule Json.null = Schema.unrecognized :=
  ⟨rfl, rfl⟩

/-- **C3** witness: the amended rule at a concrete non-null value. -/
theorem c3_witness :
    detectSchema (Json.obj [("walls", Json.arr [])]) =
      .ok (specSchemaRule (Json.obj [("walls", Json.arr [])])) :=
  c3_theorem _ (fun h => Json.noConfusion h)

/-- **C2**: an upload whose text fails JSON parsing (including a parsed
`null`, whose field access throws inside the same `try`) or whose parsed
value is classified `Unrecognized` leaves the previously rendered primitive
set completely untouched; and when the schema is recognized the resulting
scene does not depend on the previous primitives at all (it is cleared and
rebuilt). -/
theorem c2_theorem (env : JsEnv) (decodeNew : Json → NewJsonData)
    (decodeOld : Json → OldJsonData) (name : String) (parsed : Option Json) :
    (∀ prev, (parsed = none ∨ ∃ v, parsed = some v ∧
        (detectSchema v = .error () ∨ detectSchema v = .ok .unrecognized)) →
      (handleFileUpload env decodeNew decodeOld prev name parsed).1 = prev) ∧
    (∀ v prev prev', parsed = some v →
      (detectSchema v = .ok .currentRecords ∨ detectSchema v = .ok .legacyWalls) →
      handleFileUpload env decodeNew decodeOld prev name parsed =
        handleFileUpload env decodeNew decodeOld prev' name parsed) := by
  constructor
  · intro prev h
    rcases h with rfl | ⟨v, rfl, hv | hv⟩
    · rfl
    · simp [handleFileUpload, hv]
    · simp [handleFileUpload, hv]
  · rintro v prev prev' rfl hrec
    rcases hrec with hv | hv
    · simp [handleFileUpload, hv]
    · simp [handleFileUpload, hv]

/-- **C2** witness: a concrete unrecognized upload leaves a concrete
previous scene untouched. -/
theorem c2_witness :
    (handleFileUpload env0 (fun _ => ⟨"", []⟩) (fun _ => ⟨[]⟩)
        prevScene "f.json" (some unrecValue)).1 = prevScene :=
  (c2_theorem env0 (fun _ => ⟨"", []⟩) (fun _ => ⟨[]⟩) "f.json"
      (some unrecValue)).1 prevScene
    (Or.inr ⟨unrecValue, rfl, Or.inr rfl⟩)

/-- **C1** (amended): for a legacy input all of whose bbox corners coincide
(bounding extent `0`), the computed scale factor is **`+Infinity`**, not a
finite number — the division `50 / size` is unguarded.  Every synthesized
box still has finite, non-degenerate dimensions `0.1 × 2.5 × 0.1` (the
products `0 * Infinity` are `NaN`, which the `|| 0.1` floor replaces), but
the horizontal position coordinates are `NaN` or `±Infinity`, never
finite. -/
theorem c1_theorem (d : OldJsonData) (a b : ℚ) (name : String)
    (hne : d.walls ≠ [])
    (hc : ∀ w ∈ d.walls,
      w.bbox.x1 = a ∧ w.bbox.x2 = a ∧ w.bbox.y1 = b ∧ w.bbox.y2 = b) :
    oldScale d.walls = JsNum.inf true ∧
    ∀ p ∈ (renderOldFormat d name).prims,
      ∃ px pz c, p = Prim.box (.num (1 / 10)) (.num (1 / 10)) wallH
          (px, wallH / 2, pz) c ∧
        px.isFinite = false ∧ pz.isFinite = false := by
  have hXall : ∀ x ∈ cornersX d.walls, x = a := by
    intro x hx
    rcases mem_cornersX.mp hx with ⟨w, hw, hx1 | hx2⟩
    · rw [hx1]; exact (hc w hw).1
    · rw [hx2]; exact (hc w hw).2.1
  have hYall : ∀ y ∈ cornersY d.walls, y = b := by
    intro y hy
    rcases mem_cornersY.mp hy with ⟨w, hw, hy1 | hy2⟩
    · rw [hy1]; exact (hc w hw).2.2.1
    · rw [hy2]; exact (hc w hw).2.2.2
  have hsize : oldSize d.walls = 0 := by
    unfold oldSize
    rw [minOf_eq_of_all (cornersX_ne_nil hne) hXall,
      maxOf_eq_of_all (cornersX_ne_nil hne) hXall,
      minOf_eq_of_all (cornersY_ne_nil hne) hYall,
      maxOf_eq_of_all (cornersY_ne_nil hne) hYall]
    simp
  have hscale : oldScale d.walls = JsNum.inf true := by
    rw [oldScale, hsize]
    norm_num [JsNum.div]
  refine ⟨hscale, ?_⟩
  intro p hp
  have hlen : ¬ d.walls.length = 0 := by
    simpa [List.length_eq_zero] using hne
  rw [renderOldFormat, if_neg hlen] at hp
  simp only [List.mem_map] at hp
  obtain ⟨w, hw, rfl⟩ := hp
  obtain ⟨hx1, hx2, hy1, hy2⟩ := hc w hw
  have hdx : w.bbox.x2 - w.bbox.x1 = 0 := by rw [hx1, hx2]; ring
  have hdy : w.bbox.y2 - w.bbox.y1 = 0 := by rw [hy1, hy2]; ring
  have hbox : wallBox (oldScale d.walls)
      ((minOf (cornersX d.walls) + maxOf (cornersX d.walls)) / 2)
      ((minOf (cornersY d.walls) + maxOf (cornersY d.walls)) / 2) w =
      Prim.box (.num (1 / 10)) (.num (1 / 10)) wallH
        (JsNum.mul
          (.num (w.center.x - (minOf (cornersX d.walls) + maxOf (cornersX d.walls)) / 2))
          (.inf true),
         wallH / 2,
         JsNum.mul
          (.num (w.center.y - (minOf (cornersY d.walls) + maxOf (cornersY d.walls)) / 2))
          (.inf true)) w.cls := by
    simp only [wallBox, hscale, hdx, hdy]
    norm_num [JsNum.mul, JsNum.orElse, JsNum.falsy]
  exact ⟨_, _, _, hbox, mul_num_inf_not_finite _ _, mul_num_inf_not_finite _ _⟩

/-- **C1** counterexample: a single wall whose bbox is the point `(2,3)`
(extent `0`).  The computed scale factor is not finite, and the synthesized
box sits at a `NaN` position, contradicting the claim that the scale is
finite and non-zero and the position finite.  (Its dimensions do get the
`0.1` floor.) -/
theorem c1_counterexample :
    (oldScale [wallPoint]).isFinite = false ∧
    (renderOldFormat ⟨[wallPoint]⟩ "f").prims =
      [Prim.box (.num (1 / 10)) (.num (1 / 10)) wallH
        (.nan, 5 / 4, .nan) "perimeter_wall"] := by
  constructor
  · norm_num [oldScale, oldSize, wallPoint, cornersX, cornersY, minOf, maxOf,
      foldMin, foldMax, JsNum.div, JsNum.isFinite]
  · norm_num [renderOldFormat, wallPoint, cornersX, cornersY, minOf, maxOf,
      foldMin, foldMax, oldScale, oldSize, JsNum.div, wallBox, JsNum.mul,
      JsNum.orElse, JsNum.falsy, wallH]

/-- **C1** witness: the amended statement at the concrete point-bbox wall. -/
theorem c1_witness :
    oldScale [wallPoint] = JsNum.inf true ∧
    ∀ p ∈ (renderOldFormat ⟨[wallPoint]⟩ "f").prims,
      ∃ px pz c, p = Prim.box (.num (1 / 10)) (.num (1 / 10)) wallH
          (px, wallH / 2, pz) c ∧
        px.isFinite = false ∧ pz.isFinite = false :=
  c1_theorem ⟨[wallPoint]⟩ 2 3 "f" (by simp) (by norm_num [wallPoint])

/-- **C4**: for every legacy input with nonzero extent, the synthesized
boxes are exactly the boxes the claim describes: width `|x2-x1| * scale`
and depth `|y2-y1| * scale` with the `0.1` floor when zero, height `2.5`,
position `((center.x - cx) * scale, height/2, (center.y - cy) * scale)`
with `scale = 50 / extent` and `(cx, cy)` the bbox-corner bounds center. -/
theorem c4_theorem (d : OldJsonData) (name : String) (h : oldSize d.walls ≠ 0) :
    (renderOldFormat d name).prims =
      d.walls.map (claimWallBox (50 / oldSize d.walls)
        ((minOf (cornersX d.walls) + maxOf (cornersX d.walls)) / 2)
        ((minOf (cornersY d.walls) + maxOf (cornersY d.walls)) / 2)) :=
  renderOld_prims_eq d name h

/-- **C4** witness: the specification's example input — one wall with bbox
`(0,0)-(10,0)` and center `(5,0)` — yields exactly one box of width `50`
(`10 * (50/10)`), depth floored to `0.1`, height `2.5`, centered at the
origin. -/
theorem c4_witness :
    (renderOldFormat ⟨[wallExample]⟩ "plan.json").prims =
      [Prim.box (.num 50) (.num (1 / 10)) (5 / 2)
        (.num 0, 5 / 4, .num 0) "perimeter_wall"] := by
  rw [c4_theorem ⟨[wallExample]⟩ "plan.json"
    (by norm_num [oldSize, wallExample, cornersX, cornersY, minOf, maxOf,
      foldMin, foldMax])]
  norm_num [claimWallBox, wallExample, cornersX, cornersY, minOf, maxOf,
    foldMin, foldMax, oldSize]

/-- **C6**: a 2-point segment whose computed length is below the epsilon
`0.001` emits no primitive (the renderer is a total function, so no error
is raised either). -/
theorem c6_theorem (env : JsEnv) (a b : ℚ × ℚ × ℚ) (color : ℕ) (ty : String)
    (h : env.sqrt ((b.1 - a.1) * (b.1 - a.1) + (b.2.1 - a.2.1) * (b.2.1 - a.2.1)
          + (b.2.2 - a.2.2) * (b.2.2 - a.2.2)) < 1 / 1000) :
    renderLine env a b color ty = [] := by
  simp only [renderLine]
  rw [if_pos h]

/-- **C6** witness: two equal points (distance `0`) produce no geometry. -/
theorem c6_witness :
    renderLine env0 (0, 0, 0) (0, 0, 0) 0xa855f7 "ridge_length" = [] :=
  c6_theorem env0 (0, 0, 0) (0, 0, 0) 0xa855f7 "ridge_length" (by norm_num [env0])

/-- **C5**: every segment emitted for a 2-point record has thickness `0.25`
and height `0.3` when the category is `ridge_length` and thickness `0.15`,
height `0.12` otherwise; and the specification's example — one
`ridge_length` record from `(0,0)` to `(120,0)` — produces exactly one
horizontal segment of length `10` (`120 * (1/12)`), thickness `0.25`,
height `0.3`, endpoints at elevation `0.3`, positioned at the endpoint
midpoint lifted by `height/2` (`y = 0.45`), with rotation
`-atan2(0, 10) = 0` about the up axis.  The hypotheses pin the abstract
`Math.sqrt` and `Math.atan2` at the two points the example evaluates them
(values of the real functions). -/
theorem c5_theorem (env : JsEnv) (hs : env.sqrt 100 = 10)
    (ha : env.atan2 0 10 = 0) :
    (∀ a b color ty p, p ∈ renderLine env a b color ty →
      ∃ len pos rot, p = Prim.segment a b len
        (if ty = "ridge_length" then 1 / 4 else 3 / 20)
        (if ty = "ridge_length" then 3 / 10 else 3 / 25) pos rot color) ∧
    renderNewFormat env ⟨"p1", [recRidge]⟩ =
      .ok ⟨[Prim.segment (-5, 3 / 10, 0) (5, 3 / 10, 0) 10 (1 / 4) (3 / 10)
              (0, 9 / 20, 0) 0 0xa855f7],
           [("ridge_length", 1)], some (.projectLoaded "p1" 1)⟩ := by
  constructor
  · intro a b color ty p hp
    simp only [renderLine] at hp
    by_cases hcond : env.sqrt ((b.1 - a.1) * (b.1 - a.1)
        + (b.2.1 - a.2.1) * (b.2.1 - a.2.1)
        + (b.2.2 - a.2.2) * (b.2.2 - a.2.2)) < 1 / 1000
    · rw [if_pos hcond] at hp
      exact absurd hp (List.not_mem_nil p)
    · rw [if_neg hcond] at hp
      rw [List.mem_singleton] at hp
      exact ⟨_, _, _, hp⟩
  · have hline : renderLine env (-5, 3 / 10, 0) (5, 3 / 10, 0) 0xa855f7
        "ridge_length" =
        [Prim.segment (-5, 3 / 10, 0) (5, 3 / 10, 0) 10 (1 / 4) (3 / 10)
          (0, 9 / 20, 0) 0 0xa855f7] := by
      simp only [renderLine]
      norm_num
      rw [hs]
      norm_num [ha]
    rw [show renderNewFormat env ⟨"p1", [recRidge]⟩ =
        .ok ⟨renderLine env (-5, 3 / 10, 0) (5, 3 / 10, 0) 0xa855f7
              "ridge_length",
             [("ridge_length", 1)], some (.projectLoaded "p1" 1)⟩ from by
      norm_num +decide [renderNewFormat, recRidge, collectCoords, minOf, maxOf,
        foldMin, foldMax, countsOf, eligible, bump, mtName, recPrims,
        MATERIAL_COLORS, ELEVATIONS, toV3, SCALE, min_def, max_def]]
    rw [hline]

/-- **C5** witness: the example pipeline run at a concrete environment
agreeing with the real `sqrt`/`atan2` at the evaluated points. -/
theorem c5_witness :
    renderNewFormat env0 ⟨"p1", [recRidge]⟩ =
      .ok ⟨[Prim.segment (-5, 3 / 10, 0) (5, 3 / 10, 0) 10 (1 / 4) (3 / 10)
              (0, 9 / 20, 0) 0 0xa855f7],
           [("ridge_length", 1)], some (.projectLoaded "p1" 1)⟩ :=
  (c5_theorem env0 (by norm_num [env0]) rfl).2

/-- **C9**: the parsed `settings.pitch` value has no influence on the
synthesized primitives: two current-schema inputs that differ only in their
records' pitch values produce identical primitive lists. -/
theorem c9_theorem (env : JsEnv) (d1 d2 : NewJsonData)
    (_hpid : d1.project_id = d2.project_id)
    (hrec : List.Forall₂ pitchOnlyDiff d1.records d2.records) :
    primsOf (renderNewFormat env d1) = primsOf (renderNewFormat env d2) := by
  have hlen := hrec.length_eq
  by_cases h0 : d1.records.length = 0
  · have h0' : d2.records.length = 0 := by rw [← hlen]; exact h0
    simp only [renderNewFormat, if_pos h0, if_pos h0']
  · have h0' : ¬ d2.records.length = 0 := by rw [← hlen]; exact h0
    simp only [renderNewFormat, if_neg h0, if_neg h0']
    rw [← collectCoords_congr hrec]
    rcases hcc : collectCoords d1.records with _ | allPts
    · rfl
    · simp only [primsOf]
      exact flatMap_recPrims_congr env _ _ hrec

/-- **C9** witness: a triangle record with no pitch versus the same record
with pitch `"9"`. -/
theorem c9_witness :
    primsOf (renderNewFormat env0 ⟨"p", [recTriA]⟩) =
      primsOf (renderNewFormat env0 ⟨"p", [recTriB]⟩) :=
  c9_theorem env0 ⟨"p", [recTriA]⟩ ⟨"p", [recTriB]⟩ rfl
    (List.Forall₂.cons ⟨rfl, rfl, rfl, rfl, rfl, rfl, rfl, rfl, rfl, rfl⟩
      List.Forall₂.nil)

/-- **C10** (amended): a record with exactly one coordinate point emits no
geometry but is still counted; a record with an empty (present) point list
is excluded from both geometry and counts; but a record with a **missing**
point list is not gracefully excluded — the bounds pass throws on it and
the whole render aborts with an error, so no geometry or counts are
produced for any record of that upload. -/
theorem c10_theorem :
    (∀ (env : JsEnv) (cx cy : ℚ) (r : NewRecord) p,
        r.coordinates_real_world = some [p] →
        recPrims env cx cy r = [] ∧ eligible r = true) ∧
    (∀ (env : JsEnv) (cx cy : ℚ) (r : NewRecord),
        r.coordinates_real_world = some [] →
        recPrims env cx cy r = [] ∧ eligible r = false) ∧
    (∀ (env : JsEnv) (pid : String) (rs : List NewRecord), rs.length ≠ 0 →
        (∃ r ∈ rs, r.coordinates_real_world = none) →
        renderNewFormat env ⟨pid, rs⟩ = .error ()) := by
  refine ⟨?_, ?_, ?_⟩
  · intro env cx cy r p h
    exact ⟨by simp only [recPrims, h], by simp only [eligible, h]⟩
  · intro env cx cy r h
    exact ⟨by simp only [recPrims, h], by simp only [eligible, h]⟩
  · intro env pid rs hlen hex
    simp only [renderNewFormat, if_neg hlen, collectCoords_none hex]

/-- **C10** counterexample: adding a record with a missing coordinate list
to a well-formed upload does not merely exclude that record — it turns the
whole render into an error (`TypeError` in the bounds pass), while the
upload without it succeeds. -/
theorem c10_counterexample :
    renderNewFormat env0 ⟨"p1", [recRidge, recNoCoords]⟩ = .error () ∧
    renderNewFormat env0 ⟨"p1", [recRidge]⟩ ≠ .error () := by
  constructor
  · norm_num [renderNewFormat, collectCoords, recRidge, recNoCoords]
  · norm_num [renderNewFormat, collectCoords, recRidge]
    intro h
    exact Except.noConfusion h

/-- **C10** witness: the amended behaviours at concrete records. -/
theorem c10_witness :
    recPrims env0 0 0 recOnePoint = [] ∧ eligible recOnePoint = true ∧
    recPrims env0 0 0 recEmptyPts = [] ∧ eligible recEmptyPts = false ∧
    renderNewFormat env0 ⟨"p", [recNoCoords]⟩ = .error () :=
  ⟨(c10_theorem.1 env0 0 0 recOnePoint (7, 9) rfl).1,
   (c10_theorem.1 env0 0 0 recOnePoint (7, 9) rfl).2,
   (c10_theorem.2.1 env0 0 0 recEmptyPts rfl).1,
   (c10_theorem.2.1 env0 0 0 recEmptyPts rfl).2,
   c10_theorem.2.2 env0 "p" [recNoCoords] (by simp) ⟨recNoCoords, by simp, rfl⟩⟩

/-- Bounds re-derived from an affinely transformed point set. -/
theorem recompCenter_map_affine (cx cy : ℚ) {l : List (ℚ × ℚ)} (hne : l ≠ []) :
    recompCenter (l.map (fun p => ((p.1 - cx) * SCALE, (p.2 - cy) * SCALE))) =
      some (((minOf (l.map Prod.fst) - cx) * SCALE
              + (maxOf (l.map Prod.fst) - cx) * SCALE) / 2,
            ((minOf (l.map Prod.snd) - cy) * SCALE
              + (maxOf (l.map Prod.snd) - cy) * SCALE) / 2) := by
  have hS : (0 : ℚ) ≤ SCALE := by norm_num [SCALE]
  rcases l with _ | ⟨p, ps⟩
  · exact absurd rfl hne
  · have h1 : ((p :: ps).map
        (fun p => ((p.1 - cx) * SCALE, (p.2 - cy) * SCALE))).map Prod.fst =
        ((p :: ps).map Prod.fst).map (fun x => (x - cx) * SCALE) := by
      simp only [List.map_map]; rfl
    have h2 : ((p :: ps).map
        (fun p => ((p.1 - cx) * SCALE, (p.2 - cy) * SCALE))).map Prod.snd =
        ((p :: ps).map Prod.snd).map (fun y => (y - cy) * SCALE) := by
      simp only [List.map_map]; rfl
    rw [show recompCenter ((p :: ps).map
          (fun p => ((p.1 - cx) * SCALE, (p.2 - cy) * SCALE))) =
        some ((minOf (((p :: ps).map
                (fun p => ((p.1 - cx) * SCALE, (p.2 - cy) * SCALE))).map Prod.fst)
              + maxOf (((p :: ps).map
                (fun p => ((p.1 - cx) * SCALE, (p.2 - cy) * SCALE))).map Prod.fst)) / 2,
              (minOf (((p :: ps).map
                (fun p => ((p.1 - cx) * SCALE, (p.2 - cy) * SCALE))).map Prod.snd)
              + maxOf (((p :: ps).map
                (fun p => ((p.1 - cx) * SCALE, (p.2 - cy) * SCALE))).map Prod.snd)) / 2)
      from rfl]
    rw [h1, h2,
      minOf_affine cx SCALE hS (by simp), maxOf_affine cx SCALE hS (by simp),
      minOf_affine cy SCALE hS (by simp), maxOf_affine cy SCALE hS (by simp)]

/-- **C7** (amended): for a current-schema input in which every record
emits geometry covering its points (at least 3 points, or exactly 2 at
distance not below the epsilon), re-deriving the bounding box from the
synthesized primitives (polygon footprint points and segment endpoints)
yields a box centered exactly at the origin.  The claim fails for the
legacy schema and for non-emitting records (see the counterexample). -/
theorem c7_theorem (env : JsEnv) (d : NewJsonData) (hne : d.records ≠ [])
    (hall : ∀ r ∈ d.records, ∃ l, r.coordinates_real_world = some l ∧
      emitsGeometry env l) :
    ∃ out, renderNewFormat env d = .ok out ∧
      recompCenter (gatherAll out.prims) = some (0, 0) := by
  have hlen : ¬ d.records.length = 0 := by
    simpa [List.length_eq_zero] using hne
  obtain ⟨allPts, hcc⟩ :=
    collectCoords_some (fun r hr => (hall r hr).imp (fun l hl => hl.1))
  have hPtsNe : allPts ≠ [] := by
    rcases hd : d.records with _ | ⟨r, rest⟩
    · exact absurd hd hne
    · obtain ⟨l, hco, hemit⟩ :=
        hall r (by rw [hd]; exact List.mem_cons_self r rest)
      have hlne : l ≠ [] := by
        rcases hemit with h3 | ⟨p, q, rfl, -⟩
        · intro h
          rw [h] at h3
          simp at h3
        · simp
      rw [hd] at hcc
      rcases hrest : collectCoords rest with _ | restPts
      · rw [collectCoords, hco, hrest] at hcc
        cases hcc
      · rw [collectCoords, hco, hrest] at hcc
        rcases hcc with ⟨rfl⟩
        simp [hlne]
  simp only [renderNewFormat, if_neg hlen, hcc]
  refine ⟨_, rfl, ?_⟩
  show recompCenter (gatherAll
    (d.records.flatMap (recPrims env
      ((minOf (allPts.map Prod.fst) + maxOf (allPts.map Prod.fst)) / 2)
      ((minOf (allPts.map Prod.snd) + maxOf (allPts.map Prod.snd)) / 2)))) =
    some (0, 0)
  rw [gatherAll, gather_flatMap env _ _ d.records allPts hcc hall,
    recompCenter_map_affine _ _ hPtsNe]
  have hx : ((minOf (allPts.map Prod.fst)
        - (minOf (allPts.map Prod.fst) + maxOf (allPts.map Prod.fst)) / 2) * SCALE
      + (maxOf (allPts.map Prod.fst)
        - (minOf (allPts.map Prod.fst) + maxOf (allPts.map Prod.fst)) / 2) * SCALE)
      / 2 = 0 := by ring
  have hy : ((minOf (allPts.map Prod.snd)
        - (minOf (allPts.map Prod.snd) + maxOf (allPts.map Prod.snd)) / 2) * SCALE
      + (maxOf (allPts.map Prod.snd)
        - (minOf (allPts.map Prod.snd) + maxOf (allPts.map Prod.snd)) / 2) * SCALE)
      / 2 = 0 := by ring
  rw [hx, hy]

/-- **C7** counterexample: a legacy input whose wall `center` lies far from
its bbox.  The synthesized box's position is derived from `center` while
the bounds (and so the centering shift) are derived from the bbox corners,
so the re-derived bounding box is centered at `(4975, -25)`, not at the
origin (under any reasonable floating tolerance). -/
theorem c7_counterexample :
    recompCenter (gatherAll (renderOldFormat ⟨[wallFarCenter]⟩ "f").prims) =
      some (4975, -25) ∧
    recompCenter (gatherAll (renderOldFormat ⟨[wallFarCenter]⟩ "f").prims) ≠
      some (0, 0) := by
  have h : recompCenter (gatherAll (renderOldFormat ⟨[wallFarCenter]⟩ "f").prims) =
      some (4975, -25) := by
    norm_num [renderOldFormat, wallFarCenter, cornersX, cornersY, minOf, maxOf,
      foldMin, foldMax, oldScale, oldSize, JsNum.div, wallBox, JsNum.mul,
      JsNum.orElse, JsNum.falsy, wallH, gatherAll, gatherXZ, recompCenter,
      min_def, max_def]
  refine ⟨h, ?_⟩
  rw [h]
  intro hcontra
  simp only [Option.some.injEq, Prod.mk.injEq] at hcontra
  norm_num at hcontra

/-- **C7** witness: the amended round-trip at the concrete ridge example. -/
theorem c7_witness :
    ∃ out, renderNewFormat env0 ⟨"p1", [recRidge]⟩ = .ok out ∧
      recompCenter (gatherAll out.prims) = some (0, 0) :=
  c7_theorem env0 ⟨"p1", [recRidge]⟩ (by simp)
    (by
      intro r hr
      rw [List.mem_singleton] at hr
      subst hr
      exact ⟨[(0, 0), (120, 0)], rfl,
        Or.inr ⟨(0, 0), (120, 0), rfl, by norm_num [env0, SCALE]⟩⟩)

/-- **C8** (amended): for a legacy input with nonzero extent **whose wall
centers agree with their bbox centers**, the bounding box of the
synthesized boxes (positions extended by half width/depth) spans at most
`50 + 0.1` on either horizontal axis — the fixed target extent plus the
`0.1` minimum-size floor, which can protrude `0.05` beyond the scaled
bounds on each side when a degenerate wall sits at the boundary.  Without
the center hypothesis the span is unbounded (see the counterexample). -/
theorem c8_theorem (d : OldJsonData) (name : String)
    (hne : d.walls ≠ []) (hsz : oldSize d.walls ≠ 0)
    (hc : ∀ w ∈ d.walls, w.center.x = (w.bbox.x1 + w.bbox.x2) / 2 ∧
      w.center.y = (w.bbox.y1 + w.bbox.y2) / 2) :
    ∃ sx sz, spanOf boxIntX (renderOldFormat d name).prims = some sx ∧
      spanOf boxIntZ (renderOldFormat d name).prims = some sz ∧
      max sx sz ≤ 50 + 1 / 10 := by
  have hXne := cornersX_ne_nil hne
  have hYne := cornersY_ne_nil hne
  have hsize_nonneg : 0 ≤ oldSize d.walls :=
    le_trans (sub_nonneg.mpr (minOf_le_maxOf hXne)) (le_max_left _ _)
  have hsize_pos : 0 < oldSize d.walls :=
    lt_of_le_of_ne hsize_nonneg (Ne.symm hsz)
  have hprims := renderOld_prims_eq d name hsz
  set s := 50 / oldSize d.walls with hs_def
  have hs_nonneg : 0 ≤ s := le_of_lt (div_pos (by norm_num) hsize_pos)
  set mX := minOf (cornersX d.walls) with hmX
  set MX := maxOf (cornersX d.walls) with hMX
  set mY := minOf (cornersY d.walls) with hmY
  set MY := maxOf (cornersY d.walls) with hMY
  set cxv := (mX + MX) / 2 with hcxv
  set cyv := (mY + MY) / 2 with hcyv
  have hmapX := mapM_map_some (claimWallBox s cxv cyv) boxIntX
    (claimIntX s cxv) d.walls (fun w _ => boxIntX_claim s cxv cyv w)
  have hmapZ := mapM_map_some (claimWallBox s cxv cyv) boxIntZ
    (claimIntZ s cyv) d.walls (fun w _ => boxIntZ_claim s cxv cyv w)
  have hspanX : spanOf boxIntX (renderOldFormat d name).prims =
      some (maxOf ((d.walls.map (claimIntX s cxv)).map Prod.snd)
        - minOf ((d.walls.map (claimIntX s cxv)).map Prod.fst)) := by
    simp only [spanOf]
    rw [hprims, hmapX]
    rfl
  have hspanZ : spanOf boxIntZ (renderOldFormat d name).prims =
      some (maxOf ((d.walls.map (claimIntZ s cyv)).map Prod.snd)
        - minOf ((d.walls.map (claimIntZ s cyv)).map Prod.fst)) := by
    simp only [spanOf]
    rw [hprims, hmapZ]
    rfl
  have hboundX : ∀ w ∈ d.walls,
      (mX - cxv) * s - 1 / 20 ≤ (claimIntX s cxv w).1 ∧
      (claimIntX s cxv w).2 ≤ (MX - cxv) * s + 1 / 20 := by
    intro w hw
    have hx1l : mX ≤ w.bbox.x1 :=
      minOf_le_mem (mem_cornersX.mpr ⟨w, hw, Or.inl rfl⟩)
    have hx2l : mX ≤ w.bbox.x2 :=
      minOf_le_mem (mem_cornersX.mpr ⟨w, hw, Or.inr rfl⟩)
    have hx1u : w.bbox.x1 ≤ MX :=
      mem_le_maxOf (mem_cornersX.mpr ⟨w, hw, Or.inl rfl⟩)
    have hx2u : w.bbox.x2 ≤ MX :=
      mem_le_maxOf (mem_cornersX.mpr ⟨w, hw, Or.inr rfl⟩)
    have hcw := (hc w hw).1
    by_cases hzero : |w.bbox.x2 - w.bbox.x1| * s = 0
    · have hI1 : (claimIntX s cxv w).1 = (w.center.x - cxv) * s - 1 / 20 := by
        simp only [claimIntX, if_pos hzero]
        norm_num
      have hI2 : (claimIntX s cxv w).2 = (w.center.x - cxv) * s + 1 / 20 := by
        simp only [claimIntX, if_pos hzero]
        norm_num
      have hcl : (mX - cxv) * s ≤ (w.center.x - cxv) * s :=
        mul_le_mul_of_nonneg_right (by rw [hcw]; linarith) hs_nonneg
      have hcu : (w.center.x - cxv) * s ≤ (MX - cxv) * s :=
        mul_le_mul_of_nonneg_right (by rw [hcw]; linarith) hs_nonneg
      exact ⟨by rw [hI1]; linarith, by rw [hI2]; linarith⟩
    · have hI1 : (claimIntX s cxv w).1 =
          (min w.bbox.x1 w.bbox.x2 - cxv) * s := by
        simp only [claimIntX, if_neg hzero]
        rw [hcw, show ((w.bbox.x1 + w.bbox.x2) / 2 - cxv) * s
              - |w.bbox.x2 - w.bbox.x1| * s / 2
            = ((w.bbox.x1 + w.bbox.x2) / 2 - |w.bbox.x2 - w.bbox.x1| / 2 - cxv) * s
            from by ring, mid_sub_half_abs]
      have hI2 : (claimIntX s cxv w).2 =
          (max w.bbox.x1 w.bbox.x2 - cxv) * s := by
        simp only [claimIntX, if_neg hzero]
        rw [hcw, show ((w.bbox.x1 + w.bbox.x2) / 2 - cxv) * s
              + |w.bbox.x2 - w.bbox.x1| * s / 2
            = ((w.bbox.x1 + w.bbox.x2) / 2 + |w.bbox.x2 - w.bbox.x1| / 2 - cxv) * s
            from by ring]
        rw [show (w.bbox.x1 + w.bbox.x2) / 2 + |w.bbox.x2 - w.bbox.x1| / 2 - cxv
            = ((w.bbox.x1 + w.bbox.x2) / 2 + |w.bbox.x2 - w.bbox.x1| / 2) - cxv
            from rfl, mid_add_half_abs]
      constructor
      · rw [hI1]
        have h1 : (mX - cxv) * s ≤ (min w.bbox.x1 w.bbox.x2 - cxv) * s :=
          mul_le_mul_of_nonneg_right
            (by have := le_min hx1l hx2l; linarith) hs_nonneg
        linarith
      · rw [hI2]
        have h1 : (max w.bbox.x1 w.bbox.x2 - cxv) * s ≤ (MX - cxv) * s :=
          mul_le_mul_of_nonneg_right
            (by have := max_le hx1u hx2u; linarith) hs_nonneg
        linarith
  have hboundZ : ∀ w ∈ d.walls,
      (mY - cyv) * s - 1 / 20 ≤ (claimIntZ s cyv w).1 ∧
      (claimIntZ s cyv w).2 ≤ (MY - cyv) * s + 1 / 20 := by
    intro w hw
    have hy1l : mY ≤ w.bbox.y1 :=
      minOf_le_mem (mem_cornersY.mpr ⟨w, hw, Or.inl rfl⟩)
    have hy2l : mY ≤ w.bbox.y2 :=
      minOf_le_mem (mem_cornersY.mpr ⟨w, hw, Or.inr rfl⟩)
    have hy1u : w.bbox.y1 ≤ MY :=
      mem_le_maxOf (mem_cornersY.mpr ⟨w, hw, Or.inl rfl⟩)
    have hy2u : w.bbox.y2 ≤ MY :=
      mem_le_maxOf (mem_cornersY.mpr ⟨w, hw, Or.inr rfl⟩)
    have hcw := (hc w hw).2
    by_cases hzero : |w.bbox.y2 - w.bbox.y1| * s = 0
    · have hI1 : (claimIntZ s cyv w).1 = (w.center.y - cyv) * s - 1 / 20 := by
        simp only [claimIntZ, if_pos hzero]
        norm_num
      have hI2 : (claimIntZ s cyv w).2 = (w.center.y - cyv) * s + 1 / 20 := by
        simp only [claimIntZ, if_pos hzero]
        norm_num
      have hcl : (mY - cyv) * s ≤ (w.center.y - cyv) * s :=
        mul_le_mul_of_nonneg_right (by rw [hcw]; linarith) hs_nonneg
      have hcu : (w.center.y - cyv) * s ≤ (MY - cyv) * s :=
        mul_le_mul_of_nonneg_right (by rw [hcw]; linarith) hs_nonneg
      exact ⟨by rw [hI1]; linarith, by rw [hI2]; linarith⟩
    · have hI1 : (claimIntZ s cyv w).1 =
          (min w.bbox.y1 w.bbox.y2 - cyv) * s := by
        simp only [claimIntZ, if_neg hzero]
        rw [hcw, show ((w.bbox.y1 + w.bbox.y2) / 2 - cyv) * s
              - |w.bbox.y2 - w.bbox.y1| * s / 2
            = ((w.bbox.y1 + w.bbox.y2) / 2 - |w.bbox.y2 - w.bbox.y1| / 2 - cyv) * s
            from by ring, mid_sub_half_abs]
      have hI2 : (claimIntZ s cyv w).2 =
          (max w.bbox.y1 w.bbox.y2 - cyv) * s := by
        simp only [claimIntZ, if_neg hzero]
        rw [hcw, show ((w.bbox.y1 + w.bbox.y2) / 2 - cyv) * s
              + |w.bbox.y2 - w.bbox.y1| * s / 2
            = ((w.bbox.y1 + w.bbox.y2) / 2 + |w.bbox.y2 - w.bbox.y1| / 2 - cyv) * s
            from by ring]
        rw [show (w.bbox.y1 + w.bbox.y2) / 2 + |w.bbox.y2 - w.bbox.y1| / 2 - cyv
            = ((w.bbox.y1 + w.bbox.y2) / 2 + |w.bbox.y2 - w.bbox.y1| / 2) - cyv
            from rfl, mid_add_half_abs]
      constructor
      · rw [hI1]
        have h1 : (mY - cyv) * s ≤ (min w.bbox.y1 w.bbox.y2 - cyv) * s :=
          mul_le_mul_of_nonneg_right
            (by have := le_min hy1l hy2l; linarith) hs_nonneg
        linarith
      · rw [hI2]
        have h1 : (max w.bbox.y1 w.bbox.y2 - cyv) * s ≤ (MY - cyv) * s :=
          mul_le_mul_of_nonneg_right
            (by have := max_le hy1u hy2u; linarith) hs_nonneg
        linarith
  have hloX : (mX - cxv) * s - 1 / 20 ≤
      minOf ((d.walls.map (claimIntX s cxv)).map Prod.fst) := by
    apply le_minOf (by simp [hne])
    intro x hx
    simp only [List.map_map, List.mem_map] at hx
    obtain ⟨w, hw, rfl⟩ := hx
    exact (hboundX w hw).1
  have hhiX : maxOf ((d.walls.map (claimIntX s cxv)).map Prod.snd) ≤
      (MX - cxv) * s + 1 / 20 := by
    apply maxOf_le (by simp [hne])
    intro x hx
    simp only [List.map_map, List.mem_map] at hx
    obtain ⟨w, hw, rfl⟩ := hx
    exact (hboundX w hw).2
  have hloZ : (mY - cyv) * s - 1 / 20 ≤
      minOf ((d.walls.map (claimIntZ s cyv)).map Prod.fst) := by
    apply le_minOf (by simp [hne])
    intro x hx
    simp only [List.map_map, List.mem_map] at hx
    obtain ⟨w, hw, rfl⟩ := hx
    exact (hboundZ w hw).1
  have hhiZ : maxOf ((d.walls.map (claimIntZ s cyv)).map Prod.snd) ≤
      (MY - cyv) * s + 1 / 20 := by
    apply maxOf_le (by simp [hne])
    intro x hx
    simp only [List.map_map, List.mem_map] at hx
    obtain ⟨w, hw, rfl⟩ := hx
    exact (hboundZ w hw).2
  have hsize_eq : oldSize d.walls = max (MX - mX) (MY - mY) := rfl
  have h50 : oldSize d.walls * s = 50 := by
    rw [hs_def, mul_comm]
    exact div_mul_cancel₀ 50 hsz
  have hX50 : (MX - mX) * s ≤ 50 := by
    have h1 : (MX - mX) * s ≤ oldSize d.walls * s := by
      rw [hsize_eq]
      exact mul_le_mul_of_nonneg_right (le_max_left _ _) hs_nonneg
    linarith
  have hY50 : (MY - mY) * s ≤ 50 := by
    have h1 : (MY - mY) * s ≤ oldSize d.walls * s := by
      rw [hsize_eq]
      exact mul_le_mul_of_nonneg_right (le_max_right _ _) hs_nonneg
    linarith
  have hsX : maxOf ((d.walls.map (claimIntX s cxv)).map Prod.snd)
      - minOf ((d.walls.map (claimIntX s cxv)).map Prod.fst) ≤ 50 + 1 / 10 := by
    have h3 : (MX - cxv) * s - (mX - cxv) * s = (MX - mX) * s := by ring
    linarith
  have hsZ : maxOf ((d.walls.map (claimIntZ s cyv)).map Prod.snd)
      - minOf ((d.walls.map (claimIntZ s cyv)).map Prod.fst) ≤ 50 + 1 / 10 := by
    have h3 : (MY - cyv) * s - (mY - cyv) * s = (MY - mY) * s := by ring
    linarith
  exact ⟨_, _, hspanX, hspanZ, max_le hsX hsZ⟩

/-- **C8** counterexample: two walls with equal bboxes but one `center` far
away.  The synthesized boxes span `5025` units on the x axis (and `75` on
z), far beyond the claimed `50`: wall centers are taken from the `center`
field, which the bbox-derived scale and bounds know nothing about. -/
theorem c8_counterexample :
    spanOf boxIntX (renderOldFormat ⟨[wallAtOrigin, wallFarCenter]⟩ "f").prims =
      some 5025 ∧
    spanOf boxIntZ (renderOldFormat ⟨[wallAtOrigin, wallFarCenter]⟩ "f").prims =
      some 75 ∧
    ¬ ((5025 : ℚ) ≤ 50) := by
  refine ⟨?_, ?_, by norm_num⟩ <;>
    norm_num [spanOf, renderOldFormat, wallAtOrigin, wallFarCenter, cornersX,
      cornersY, minOf, maxOf, foldMin, foldMax, oldScale, oldSize, JsNum.div,
      wallBox, JsNum.mul, JsNum.orElse, JsNum.falsy, wallH, boxIntX, boxIntZ,
      List.mapM_cons, List.mapM_nil, List.mapM.loop, min_def, max_def]

/-- **C8** witness: the amended bound at the specification's example wall
(whose `center` is its bbox center). -/
theorem c8_witness :
    ∃ sx sz, spanOf boxIntX (renderOldFormat ⟨[wallExample]⟩ "f").prims = some sx ∧
      spanOf boxIntZ (renderOldFormat ⟨[wallExample]⟩ "f").prims = some sz ∧
      max sx sz ≤ 50 + 1 / 10 :=
  c8_theorem ⟨[wallExample]⟩ "f" (by simp)
    (by norm_num [oldSize, wallExample, cornersX, cornersY, minOf, maxOf,
      foldMin, foldMax])
    (by
      intro w hw
      rw [List.mem_singleton] at hw
      subst hw
      norm_num [wallExample])

end House3D
